import Mathlib

/-!
Verification of the bookequalizer audio pipeline against its specification.

The definitions below are a shallow embedding of the TypeScript source:
  * `src/routes/audio.routes.ts` — range streaming (the `/stream/:audioFileId` handler)
  * `src/services/audio-cache.service.ts` — `cacheAudioFile`, `generateETag` (MD5 hex)
  * `src/routes/progress.routes.ts` — `TTSService` (`estimateCost`, `getBestProvider`,
    `generateSpeech` provider selection)
  * `src/middleware/audio-rate-limit.ts` — streaming-limit skip predicate and
    cost-limit middleware
  * the TTS route handlers for chapter and whole-book audio generation
  * `src/services/epub.service.ts` — `preprocessForAudio` sentence segmentation

JavaScript strings are modelled as `List Char`, `Buffer`s as `List Nat`
(byte values), money as `ℚ` (the float arithmetic in the source is exact
decimal arithmetic at the magnitudes the claims exercise), and the number
values flowing through range parsing as `JSNum` (an integer or `NaN`),
matching the semantics of `parseInt` and `Buffer.slice`.
-/

set_option maxRecDepth 10000

namespace BookEq

/-! ## Decimal rendering of numbers (JS template-literal interpolation of integers) -/

/-- Value of a decimal digit character. -/
def digitVal (c : Char) : Nat := c.toNat - 48

/-- Fuel-driven digit expansion (structural recursion so that the kernel
can evaluate it; the fuel is irrelevant once it is at least the number). -/
def natDecGo : Nat → Nat → List Char
  | 0, n => [Nat.digitChar (n % 10)]
  | fuel + 1, n =>
    if n < 10 then [Nat.digitChar n]
    else natDecGo fuel (n / 10) ++ [Nat.digitChar (n % 10)]

theorem natDecGo_congr :
    ∀ fuel n fuel', n ≤ fuel → n ≤ fuel' → natDecGo fuel n = natDecGo fuel' n := by
  intro fuel
  induction fuel with
  | zero =>
    intro n fuel' h h'
    interval_cases n
    cases fuel' with
    | zero => rfl
    | succ f => rfl
  | succ f ihf =>
    intro n fuel' h h'
    cases fuel' with
    | zero =>
      interval_cases n
      rfl
    | succ f' =>
      show (if n < 10 then _ else _) = (if n < 10 then _ else _)
      by_cases hn : n < 10
      · rw [if_pos hn, if_pos hn]
      · rw [if_neg hn, if_neg hn]
        congr 1
        exact ihf (n / 10) f' (by omega) (by omega)

/-- Decimal digits of a natural number, most significant first.
Embeds JavaScript number-to-string conversion for non-negative integers. -/
def natDec (n : Nat) : List Char := natDecGo n n

theorem natDec_step (n : Nat) :
    natDec n =
      if n < 10 then [Nat.digitChar n]
      else natDec (n / 10) ++ [Nat.digitChar (n % 10)] := by
  by_cases h : n < 10
  · rw [if_pos h]
    cases n with
    | zero => rfl
    | succ m =>
      show (if m + 1 < 10 then _ else _) = _
      rw [if_pos h]
  · rw [if_neg h]
    obtain ⟨m, rfl⟩ : ∃ m, n = m + 1 := ⟨n - 1, by omega⟩
    show (if m + 1 < 10 then _ else _) = _
    rw [if_neg h]
    congr 1
    exact natDecGo_congr m ((m + 1) / 10) ((m + 1) / 10) (by omega) le_rfl

/-- Decimal rendering of an integer. -/
def intDec (z : Int) : List Char :=
  if z < 0 then '-' :: natDec z.natAbs else natDec z.natAbs

def strOf (cs : List Char) : String := String.mk cs

def natDecStr (n : Nat) : String := strOf (natDec n)

/-- Parse a digit list back to a number (left inverse of `natDec`). -/
def decVal (cs : List Char) : Nat := cs.foldl (fun a c => a * 10 + digitVal c) 0

theorem decVal_append_digit (xs : List Char) (c : Char) :
    decVal (xs ++ [c]) = decVal xs * 10 + digitVal c := by
  unfold decVal
  rw [List.foldl_append]
  rfl

theorem digitVal_digitChar {d : Nat} (h : d < 10) :
    digitVal (Nat.digitChar d) = d := by
  interval_cases d <;> rfl

theorem decVal_natDec (n : Nat) : decVal (natDec n) = n := by
  induction n using Nat.strong_induction_on with
  | _ n ih =>
    rw [natDec_step]
    split
    · next h =>
      simp [decVal, digitVal_digitChar h]
    · next h =>
      rw [decVal_append_digit, ih (n / 10) (Nat.div_lt_self (by omega) (by omega)),
        digitVal_digitChar (Nat.mod_lt _ (by omega))]
      omega

theorem natDec_inj {m n : Nat} (h : natDec m = natDec n) : m = n := by
  have hm := decVal_natDec m
  rw [h, decVal_natDec] at hm
  omega

theorem digitChar_isDigit {d : Nat} (h : d < 10) :
    (Nat.digitChar d).isDigit = true := by
  interval_cases d <;> rfl

theorem natDec_all_digit (n : Nat) : ∀ c ∈ natDec n, c.isDigit = true := by
  induction n using Nat.strong_induction_on with
  | _ n ih =>
    rw [natDec_step]
    split
    · next h =>
      intro c hc
      simp only [List.mem_singleton] at hc
      subst hc
      exact digitChar_isDigit h
    · next h =>
      intro c hc
      rw [List.mem_append] at hc
      rcases hc with hc | hc
      · exact ih (n / 10) (Nat.div_lt_self (by omega) (by omega)) c hc
      · simp only [List.mem_singleton] at hc
        subst hc
        exact digitChar_isDigit (Nat.mod_lt _ (by omega))

theorem natDec_ne_nil (n : Nat) : natDec n ≠ [] := by
  rw [natDec_step]
  split <;> simp

/-! ## JavaScript number values in the range-parsing fragment -/

/-- A JS number as produced by `parseInt` and integer arithmetic:
either `NaN` or an integer. -/
inductive JSNum where
  | nan : JSNum
  | int : Int → JSNum
deriving DecidableEq, Repr

/-- JS subtraction on numbers: `NaN` propagates. -/
def jsSub : JSNum → JSNum → JSNum
  | JSNum.int a, JSNum.int b => JSNum.int (a - b)
  | _, _ => JSNum.nan

/-- JS addition on numbers: `NaN` propagates. -/
def jsAdd : JSNum → JSNum → JSNum
  | JSNum.int a, JSNum.int b => JSNum.int (a + b)
  | _, _ => JSNum.nan

/-- JS number-to-string, restricted to the values above: `NaN` prints as the
three characters of that word, integers in decimal. -/
def jsToStr : JSNum → List Char
  | JSNum.nan => ['N', 'a', 'N']
  | JSNum.int z => intDec z

/-- JS whitespace characters recognised by `trim` (ASCII fragment). -/
def isJsSpace (c : Char) : Bool :=
  c = ' ' || c = '\t' || c = '\n' || c = '\r' || c = '\x0b' || c = '\x0c'

/-- Embedding of JS `parseInt(s, 10)`: skip whitespace, optional sign,
read the leading run of digits; `NaN` when no digit is found. -/
def parseIntJS (cs : List Char) : JSNum :=
  let t := cs.dropWhile isJsSpace
  let isNeg := t.head? == some '-'
  let rest := if t.head? == some '-' || t.head? == some '+' then t.tail else t
  let digits := rest.takeWhile Char.isDigit
  if digits.isEmpty then JSNum.nan
  else JSNum.int ((if isNeg then -1 else 1) * (decVal digits : Int))

theorem digit_not_space {c : Char} (h : c.isDigit = true) : isJsSpace c = false := by
  by_contra hc
  simp only [Bool.not_eq_false] at hc
  simp only [isJsSpace, Bool.or_eq_true, decide_eq_true_eq] at hc
  rcases hc with ((((rfl | rfl) | rfl) | rfl) | rfl) | rfl <;> simp [Char.isDigit] at h

theorem digit_ne_minus {c : Char} (h : c.isDigit = true) : c ≠ '-' := by
  rintro rfl
  simp [Char.isDigit] at h

theorem digit_ne_plus {c : Char} (h : c.isDigit = true) : c ≠ '+' := by
  rintro rfl
  simp [Char.isDigit] at h

theorem takeWhile_eq_self_of_all {p : Char → Bool} :
    ∀ l : List Char, (∀ c ∈ l, p c = true) → l.takeWhile p = l := by
  intro l h
  induction l with
  | nil => rfl
  | cons c cs ih =>
    simp [List.takeWhile_cons, h c (List.mem_cons_self _ _),
      ih (fun x hx => h x (List.mem_cons_of_mem _ hx))]

theorem parseIntJS_natDec (n : Nat) : parseIntJS (natDec n) = JSNum.int n := by
  have hdig := natDec_all_digit n
  obtain ⟨c, rest, hcs⟩ : ∃ c rest, natDec n = c :: rest := by
    cases h : natDec n with
    | nil => exact absurd h (natDec_ne_nil n)
    | cons c rest => exact ⟨c, rest, rfl⟩
  have hc : c.isDigit = true := hdig c (by rw [hcs]; exact List.mem_cons_self _ _)
  unfold parseIntJS
  rw [hcs]
  rw [List.dropWhile_cons, digit_not_space hc]
  simp only [Bool.false_eq_true, if_false, List.head?_cons]
  have hm : (some c == some '-') = false := by
    simp only [beq_eq_false_iff_ne, ne_eq, Option.some.injEq]
    exact digit_ne_minus hc
  have hp : (some c == some '+') = false := by
    simp only [beq_eq_false_iff_ne, ne_eq, Option.some.injEq]
    exact digit_ne_plus hc
  rw [hm, hp]
  simp only [Bool.or_self, Bool.false_eq_true, if_false]
  rw [takeWhile_eq_self_of_all (c :: rest) (by rw [← hcs]; exact hdig)]
  simp only [List.isEmpty_cons, Bool.false_eq_true, if_false]
  rw [← hcs, decVal_natDec]
  simp

/-! ## List-based string helpers used by the routes -/

/-- Embedding of JS `s.replace(/bytes=/, '')`: remove the first occurrence
of the pattern, scanning left to right. -/
def removeFirstSub (cs pat : List Char) : List Char :=
  if cs.take pat.length = pat then cs.drop pat.length
  else
    match cs with
    | [] => []
    | c :: rest => c :: removeFirstSub rest pat

theorem removeFirstSub_append (pat rest : List Char) :
    removeFirstSub (pat ++ rest) pat = rest := by
  unfold removeFirstSub
  rw [if_pos]
  · exact List.drop_left pat rest
  · exact List.take_left pat rest

/-- Embedding of JS `s.split('-')` for a single-character separator:
splits at every occurrence, keeping empty pieces. -/
def splitOnChar (sep : Char) : List Char → List (List Char)
  | [] => [[]]
  | c :: rest =>
    if c = sep then [] :: splitOnChar sep rest
    else
      match splitOnChar sep rest with
      | [] => [[c]]
      | p :: ps => (c :: p) :: ps

theorem splitOnChar_of_no_sep (sep : Char) :
    ∀ l : List Char, (∀ c ∈ l, c ≠ sep) → splitOnChar sep l = [l] := by
  intro l h
  induction l with
  | nil => rfl
  | cons c cs ih =>
    unfold splitOnChar
    rw [if_neg (h c (List.mem_cons_self _ _))]
    rw [ih (fun x hx => h x (List.mem_cons_of_mem _ hx))]

theorem splitOnChar_cons_sep (sep : Char) (l : List Char) :
    splitOnChar sep (sep :: l) = [] :: splitOnChar sep l := by
  conv_lhs => rw [splitOnChar]
  rw [if_pos rfl]

/-! ## MD5 (embedding of `crypto.createHash('md5')` used by `generateETag`) -/

/-- Addition modulo 2^32. -/
def add32 (a b : Nat) : Nat := (a + b) % 4294967296

/-- Left rotation of a 32-bit word. -/
def rotl32 (x n : Nat) : Nat := ((x <<< n) ||| (x >>> (32 - n))) % 4294967296

/-- Bitwise complement of a 32-bit word. -/
def not32 (x : Nat) : Nat := 4294967295 ^^^ x

def md5F (b c d : Nat) : Nat := (b &&& c) ||| (not32 b &&& d)
def md5G (b c d : Nat) : Nat := (b &&& d) ||| (c &&& not32 d)
def md5H (b c d : Nat) : Nat := b ^^^ c ^^^ d
def md5I (b c d : Nat) : Nat := c ^^^ (b ||| not32 d)

/-- The 64 MD5 sine-derived constants. -/
def md5K : List Nat :=
  [3614090360, 3905402710, 606105819, 3250441966, 4118548399, 1200080426,
   2821735955, 4249261313, 1770035416, 2336552879, 4294925233, 2304563134,
   1804603682, 4254626195, 2792965006, 1236535329, 4129170786, 3225465664,
   643717713, 3921069994, 3593408605, 38016083, 3634488961, 3889429448,
   568446438, 3275163606, 4107603335, 1163531501, 2850285829, 4243563512,
   1735328473, 2368359562, 4294588738, 2272392833, 1839030562, 4259657740,
   2763975236, 1272893353, 4139469664, 3200236656, 681279174, 3936430074,
   3572445317, 76029189, 3654602809, 3873151461, 530742520, 3299628645,
   4096336452, 1126891415, 2878612391, 4237533241, 1700485571, 2399980690,
   4293915773, 2240044497, 1873313359, 4264355552, 2734768916, 1309151649,
   4149444226, 3174756917, 718787259, 3951481745]

/-- The per-round left-rotation amounts. -/
def md5S : List Nat :=
  [7, 12, 17, 22, 7, 12, 17, 22, 7, 12, 17, 22, 7, 12, 17, 22,
   5, 9, 14, 20, 5, 9, 14, 20, 5, 9, 14, 20, 5, 9, 14, 20,
   4, 11, 16, 23, 4, 11, 16, 23, 4, 11, 16, 23, 4, 11, 16, 23,
   6, 10, 15, 21, 6, 10, 15, 21, 6, 10, 15, 21, 6, 10, 15, 21]

/-- One of the 64 MD5 operations. `M` is the 16-word schedule of the block. -/
def md5Round (M : List Nat) (st : Nat × Nat × Nat × Nat) (i : Nat) :
    Nat × Nat × Nat × Nat :=
  let a := st.1
  let b := st.2.1
  let c := st.2.2.1
  let d := st.2.2.2
  let f :=
    if i < 16 then md5F b c d
    else if i < 32 then md5G b c d
    else if i < 48 then md5H b c d
    else md5I b c d
  let g :=
    if i < 16 then i
    else if i < 32 then (5 * i + 1) % 16
    else if i < 48 then (3 * i + 5) % 16
    else (7 * i) % 16
  let tmp := add32 (add32 (add32 a f) (md5K.getD i 0)) (M.getD g 0)
  (d, add32 b (rotl32 tmp (md5S.getD i 0)), b, c)

/-- Process one 64-byte block (little-endian words). -/
def md5ProcessBlock (st : Nat × Nat × Nat × Nat) (block : List Nat) :
    Nat × Nat × Nat × Nat :=
  let M := (List.range 16).map fun j =>
    block.getD (4 * j) 0 + 256 * block.getD (4 * j + 1) 0 +
      65536 * block.getD (4 * j + 2) 0 + 16777216 * block.getD (4 * j + 3) 0
  let r := (List.range 64).foldl (md5Round M) st
  (add32 r.1 st.1, add32 r.2.1 st.2.1, add32 r.2.2.1 st.2.2.1,
    add32 r.2.2.2 st.2.2.2)

/-- Little-endian bytes of a 64-bit length field. -/
def le64 (n : Nat) : List Nat := (List.range 8).map fun i => (n >>> (8 * i)) % 256

/-- MD5 padding: a `0x80` byte, zeros to 56 mod 64, then the 64-bit bit length. -/
def md5Pad (msg : List Nat) : List Nat :=
  let padZeros := (120 - (msg.length + 1) % 64) % 64
  msg ++ [128] ++ List.replicate padZeros 0 ++
    le64 ((msg.length * 8) % 18446744073709551616)

/-- Split a byte list into 64-byte blocks (fuel-driven structural recursion;
the fuel bounds the number of blocks). -/
def chunks64Go : Nat → List Nat → List (List Nat)
  | 0, _ => []
  | fuel + 1, l => if l.isEmpty then [] else l.take 64 :: chunks64Go fuel (l.drop 64)

def chunks64 (l : List Nat) : List (List Nat) := chunks64Go l.length l

/-- Little-endian bytes of a 32-bit state word. -/
def le32 (n : Nat) : List Nat := [n % 256, (n >>> 8) % 256, (n >>> 16) % 256, (n >>> 24) % 256]

/-- Two lowercase hex characters of a byte. -/
def byteHex (b : Nat) : List Char := [Nat.digitChar (b / 16), Nat.digitChar (b % 16)]

/-- The lowercase hex MD5 digest of a byte sequence. -/
def md5hex (msg : List Nat) : String :=
  let st := (chunks64 (md5Pad msg)).foldl md5ProcessBlock
    (1732584193, 4023233417, 2562383102, 271733878)
  strOf (((le32 st.1 ++ le32 st.2.1 ++ le32 st.2.2.1 ++ le32 st.2.2.2).map byteHex).flatten)

/-! ## Audio cache (`audio-cache.service.ts`) -/

/-- `AudioCacheService.generateETag`: MD5 hex digest of the byte buffer. -/
def generateETag (buffer : List Nat) : String := md5hex buffer

/-- One entry of the audio-byte cache tier (`AudioCacheEntry`). -/
structure AudioCacheEntry where
  filePath : String
  buffer : List Nat
  contentType : String
  size : Nat
  etag : String
deriving DecidableEq, Repr

/-- `AudioCacheService.cacheAudioFile`: the entry stored (and returned) for a
buffer; the ETag is recomputed from the bytes on every (re)population. -/
def cacheAudioFile (audioFileId : String) (buffer : List Nat) : AudioCacheEntry :=
  { filePath := "cached_" ++ audioFileId
    buffer := buffer
    contentType := "audio/mpeg"
    size := buffer.length
    etag := generateETag buffer }

/-! ## Streaming delivery (`audio.routes.ts`, the stream route handler) -/

/-- Coercion of a JS number to a buffer offset, as performed by
`Buffer.slice` (ECMAScript `ToIntegerOrInfinity` then clamping):
`NaN` becomes 0, negative offsets count from the end, and offsets are
clamped to the buffer length. -/
def bufIndex (len : Nat) : JSNum → Nat
  | JSNum.nan => 0
  | JSNum.int z => if z < 0 then ((len : Int) + z).toNat else min z.toNat len

/-- JS `buffer.slice(s, e)`. -/
def bufferSlice (buf : List Nat) (s e : JSNum) : List Nat :=
  (buf.take (bufIndex buf.length e)).drop (bufIndex buf.length s)

/-- The observable response of the stream route: status, the headers the
handler sets last, and the exact bytes written. -/
structure StreamResponse where
  status : Nat
  contentType : String
  contentLength : String
  etag : String
  contentRange : Option String
  body : List Nat
deriving DecidableEq, Repr

/-- The range-request logic of `router.get('/stream/:audioFileId')`
(lines 29–54 of `audio.routes.ts`), applied to a cache entry that was
found.  With a `Range` header: strip `bytes=`, split on `-`,
`parseInt` the start, default the end to `size - 1` when the second part
is falsy, respond 206 with a `Content-Range` header and
`buffer.slice(start, end + 1)`; without one, respond 200 with the whole
buffer.  The `Content-Length` header is first set to the full size and
then overwritten by the chunk size in the range branch; the final value
is modelled. -/
def handleStream (cached : AudioCacheEntry) (rangeHeader : Option String) :
    StreamResponse :=
  match rangeHeader with
  | some range =>
    let parts := splitOnChar '-' (removeFirstSub range.data ['b', 'y', 't', 'e', 's', '='])
    let start := parseIntJS (parts.getD 0 [])
    let endv :=
      match parts.getD 1 [] with
      | [] => JSNum.int ((cached.size : Int) - 1)
      | s => parseIntJS s
    let chunkSize := jsAdd (jsSub endv start) (JSNum.int 1)
    { status := 206
      contentType := cached.contentType
      contentLength := strOf (jsToStr chunkSize)
      etag := cached.etag
      contentRange := some (strOf (('b' :: 'y' :: 't' :: 'e' :: 's' :: ' ' :: jsToStr start) ++
        '-' :: jsToStr endv ++ '/' :: natDec cached.size))
      body := bufferSlice cached.buffer start (jsAdd endv (JSNum.int 1)) }
  | none =>
    { status := 200
      contentType := cached.contentType
      contentLength := natDecStr cached.size
      etag := cached.etag
      contentRange := none
      body := cached.buffer }

/-! ## TTS service (`TTSService` in `progress.routes.ts`) -/

/-- `VoiceOption` of the TTS service. -/
structure VoiceOption where
  id : String
  name : String
  language : String
  gender : String
  provider : String
  costPerChar : ℚ
deriving DecidableEq, Repr

/-- The static voice table of `TTSService.getAvailableVoices`. -/
def availableVoices : List VoiceOption :=
  [⟨"en-US-Standard-A", "English (US) - Standard A", "en-US", "female", "google", 0.000016⟩,
   ⟨"en-US-Standard-B", "English (US) - Standard B", "en-US", "male", "google", 0.000016⟩,
   ⟨"en-US-Standard-C", "English (US) - Standard C", "en-US", "female", "google", 0.000016⟩,
   ⟨"en-US-Standard-D", "English (US) - Standard D", "en-US", "male", "google", 0.000016⟩,
   ⟨"en-US-JennyNeural", "English (US) - Jenny Neural", "en-US", "female", "azure", 0.000004⟩,
   ⟨"en-US-GuyNeural", "English (US) - Guy Neural", "en-US", "male", "azure", 0.000004⟩,
   ⟨"en-US-AriaNeural", "English (US) - Aria Neural", "en-US", "female", "azure", 0.000004⟩,
   ⟨"Joanna", "English (US) - Joanna", "en-US", "female", "amazon", 0.000004⟩,
   ⟨"Matthew", "English (US) - Matthew", "en-US", "male", "amazon", 0.000004⟩,
   ⟨"Ivy", "English (US) - Ivy", "en-US", "female", "amazon", 0.000004⟩]

/-- JS `Math.round` on the non-negative rationals arising here:
round half away from zero equals `⌊x + 1/2⌋` for `x ≥ 0`. -/
def jsRound (q : ℚ) : ℤ := ⌊q + 1 / 2⌋

/-- `TTSService.estimateCost`: look the voice up, multiply the character
count by the per-character price, round to 4 decimal places.  An unknown
voice throws (`Voice not found`), modelled by `Except.error`. -/
def estimateCost (text : List Char) (voice : String) : Except String (ℚ × String) :=
  match availableVoices.find? (fun v => v.id == voice) with
  | none => Except.error ("Voice not found: " ++ voice)
  | some voiceOption =>
    let cost : ℚ := (text.length : ℚ) * voiceOption.costPerChar
    Except.ok ((jsRound (cost * 10000) : ℚ) / 10000, voiceOption.provider)

/-- `TTSService.getBestProvider`: text-length heuristic used when the
request names no provider. -/
def getBestProvider (text : List Char) : String :=
  let length := text.length
  if length < 1000 then "amazon"
  else if length < 5000 then "google"
  else "azure"

/-- The provider actually dispatched to by `TTSService.generateSpeech`
(line 449): `request.provider || this.getBestProvider(request.text)`.
A missing (or empty, by JS truthiness) explicit provider falls back to
the heuristic. -/
def selectedProvider (requestProvider : Option String) (text : List Char) : String :=
  match requestProvider with
  | some p => if p == "" then getBestProvider text else p
  | none => getBestProvider text

/-! ## Rate limiting and cost ledger (`audio-rate-limit.ts`) -/

/-- The `skip` predicate of `audioStreamingLimit`: a request is exempt from
the 100-per-15-minutes streaming limiter iff `!!req.headers['if-none-match']`
— i.e. iff the header is present and non-empty; the value is never compared
with the artifact's ETag. -/
def audioStreamingLimitSkip (ifNoneMatch : Option String) : Bool :=
  match ifNoneMatch with
  | some s => !(s == "")
  | none => false

/-- The key of an hourly cost bucket: `` `cost_${userId}_${currentHour}` ``. -/
def costKey (userId : String) (hour : Nat) : String :=
  strOf (('c' :: 'o' :: 's' :: 't' :: '_' :: userId.data) ++ '_' :: natDec hour)

/-- The hour bucket of a request timestamp (milliseconds):
`Math.floor(Date.now() / 3600000)`. -/
def hourBucket (nowMs : Nat) : Nat := nowMs / 3600000

/-- The request cost estimated by `costLimitMiddleware`:
`(characters / 1_000_000) * 8` when the body carries text, else 0. -/
def estimatedRequestCost (bodyText : Option (List Char)) : ℚ :=
  match bodyText with
  | some text => ((text.length : ℚ) / 1000000) * 8
  | none => 0

/-- Outcome of `costLimitMiddleware`: pass the request on (remembering the
estimate and bucket key on the request), or reject 429. -/
inductive CostDecision where
  | accept (estimatedCost : ℚ) (costKey : String) : CostDecision
  | reject (currentCost : ℚ) : CostDecision
deriving DecidableEq, Repr

/-- `costLimitMiddleware(maxCostPerHour)`: read the requester's
current-hour bucket from the cost tracker (0 when absent or expired),
reject iff adding this request's estimate would exceed the hourly cap. -/
def costLimitDecision (maxCostPerHour : ℚ) (costTracker : String → Option ℚ)
    (userId : String) (nowMs : Nat) (bodyText : Option (List Char)) : CostDecision :=
  let currentHour := hourBucket nowMs
  let key := costKey userId currentHour
  let currentCost := (costTracker key).getD 0
  let estimated := estimatedRequestCost bodyText
  if currentCost + estimated > maxCostPerHour then CostDecision.reject currentCost
  else CostDecision.accept estimated key

/-- `updateCostTracking`: add the actual cost into the stored bucket. -/
def updateCostTracking (costTracker : String → Option ℚ) (key : String)
    (actualCost : ℚ) : String → Option ℚ :=
  fun k => if k = key then some ((costTracker key).getD 0 + actualCost) else costTracker k

/-! ## TTS generation routes (the chapter / book audio handlers)

`generateSpeech` is modelled as an oracle
`synth : TTSRequest → Except String TTSResult`; each call dispatches to
exactly one provider client, so counting `synth` invocations counts
provider calls.  The Prisma store is modelled as the lists of chapter
and audio-file records the handlers read.  A handler run is summarised
by a trace: its HTTP-visible result, how many provider calls it made,
which artifact records it created, and the book-level updates. -/

structure ChapterRec where
  id : String
  bookId : String
  chapterNumber : Nat
  content : List Char
deriving DecidableEq, Repr

/-- The persisted audio artifact record (`audioFile` row). -/
structure AudioFileRec where
  bookId : String
  chapterId : String
  filePath : String
  fileSizeBytes : Nat
  durationSeconds : ℚ
  voiceUsed : String
  languageCode : String
  ttsProvider : String
  generationCostUsd : ℚ
deriving DecidableEq, Repr

structure TTSRequest where
  text : List Char
  voice : String
  language : String
  speed : ℚ
  provider : Option String
deriving DecidableEq, Repr

structure TTSResult where
  audioBufferLen : Nat
  duration : ℚ
  cost : ℚ
  provider : String
  voice : String
  filePath : String
deriving DecidableEq, Repr

/-- The predicate of `prisma.audioFile.findFirst({ where: { bookId,
chapterId, voiceUsed } })`. -/
def matchesArtifact (bookId chapterId voice : String) (a : AudioFileRec) : Bool :=
  a.bookId == bookId && a.chapterId == chapterId && a.voiceUsed == voice

/-- The record created by `prisma.audioFile.create` after synthesis. -/
def mkAudioFileRec (bookId chapterId voice : String) (language : Option String)
    (r : TTSResult) : AudioFileRec :=
  { bookId := bookId
    chapterId := chapterId
    filePath := r.filePath
    fileSizeBytes := r.audioBufferLen
    durationSeconds := r.duration
    voiceUsed := voice
    ttsProvider := r.provider.toUpper
    languageCode := language.getD "en-US"
    generationCostUsd := r.cost }

inductive ChapterAudioResult where
  | notFound : ChapterAudioResult
  | alreadyExists (audioFile : AudioFileRec) : ChapterAudioResult
  | costRejected : ChapterAudioResult
  | thrown (msg : String) : ChapterAudioResult
  | generated (audioFile : AudioFileRec) (cost duration : ℚ) (provider : String) :
      ChapterAudioResult
deriving DecidableEq, Repr

/-- The HTTP status each result is sent with (`createError` carries the
code; handler errors forwarded to `next(error)` surface as 500). -/
def ChapterAudioResult.httpStatus : ChapterAudioResult → Nat
  | ChapterAudioResult.notFound => 404
  | ChapterAudioResult.alreadyExists _ => 200
  | ChapterAudioResult.costRejected => 400
  | ChapterAudioResult.thrown _ => 500
  | ChapterAudioResult.generated _ _ _ _ => 200

structure ChapterAudioTrace where
  result : ChapterAudioResult
  providerCalls : Nat
  createdAudioFiles : List AudioFileRec
  bookCostIncrement : ℚ
deriving DecidableEq, Repr

/-- The `POST /books/:bookId/chapters/:chapterId/audio` handler
(`part_001`, lines 14–108): look the chapter up (404 on miss or book
mismatch), return any existing (chapter, voice) artifact untouched,
estimate the cost and reject with 400 above $0.10, otherwise synthesize
once, create the artifact record and increment the book's cost. -/
def generateChapterAudio (chapters : List ChapterRec) (audioFiles : List AudioFileRec)
    (synth : TTSRequest → Except String TTSResult) (bookId chapterId voice : String)
    (language : Option String) (speed : Option ℚ) (provider : Option String) :
    ChapterAudioTrace :=
  match chapters.find? (fun c => c.id == chapterId) with
  | none => ⟨ChapterAudioResult.notFound, 0, [], 0⟩
  | some chapter =>
    if chapter.bookId ≠ bookId then ⟨ChapterAudioResult.notFound, 0, [], 0⟩
    else
      match audioFiles.find? (matchesArtifact bookId chapterId voice) with
      | some existingAudio => ⟨ChapterAudioResult.alreadyExists existingAudio, 0, [], 0⟩
      | none =>
        match estimateCost chapter.content voice with
        | Except.error m => ⟨ChapterAudioResult.thrown m, 0, [], 0⟩
        | Except.ok est =>
          if est.1 > 0.10 then ⟨ChapterAudioResult.costRejected, 0, [], 0⟩
          else
            match synth ⟨chapter.content, voice, language.getD "en-US",
                speed.getD 1, provider⟩ with
            | Except.error m => ⟨ChapterAudioResult.thrown m, 1, [], 0⟩
            | Except.ok r =>
              let audioFile := mkAudioFileRec bookId chapterId voice language r
              ⟨ChapterAudioResult.generated audioFile r.cost r.duration r.provider,
                1, [audioFile], r.cost⟩

/-- One per-chapter outcome of the batch job (`status` field of the
result objects: `exists`, `generated`, `failed`). -/
inductive ChapterOutcome where
  | existing (chapterId : String) (audioFile : AudioFileRec) : ChapterOutcome
  | generated (chapterId : String) (audioFile : AudioFileRec) (cost duration : ℚ) :
      ChapterOutcome
  | failed (chapterId : String) (error : String) : ChapterOutcome
deriving DecidableEq, Repr

def ChapterOutcome.status : ChapterOutcome → String
  | ChapterOutcome.existing _ _ => "exists"
  | ChapterOutcome.generated _ _ _ _ => "generated"
  | ChapterOutcome.failed _ _ => "failed"

def ChapterOutcome.cost : ChapterOutcome → ℚ
  | ChapterOutcome.generated _ _ c _ => c
  | _ => 0

def ChapterOutcome.duration : ChapterOutcome → ℚ
  | ChapterOutcome.generated _ _ _ d => d
  | _ => 0

/-- The per-chapter closure of the batch job (`batchPromises`, lines
159–212): skip synthesis when an artifact for the (chapter, voice) pair
exists; otherwise synthesize and create the record; a per-chapter throw
is caught and reported as a `failed` entry.  Returns the result entry,
the number of provider calls made (a throwing `generateSpeech` still
counts as one attempted call) and the records created. -/
def processBookChapter (audioFiles : List AudioFileRec)
    (synth : TTSRequest → Except String TTSResult) (bookId voice : String)
    (language : Option String) (speed : Option ℚ) (provider : Option String)
    (chapter : ChapterRec) : ChapterOutcome × Nat × List AudioFileRec :=
  match audioFiles.find? (matchesArtifact bookId chapter.id voice) with
  | some existingAudio => (ChapterOutcome.existing chapter.id existingAudio, 0, [])
  | none =>
    match synth ⟨chapter.content, voice, language.getD "en-US", speed.getD 1, provider⟩ with
    | Except.error m => (ChapterOutcome.failed chapter.id m, 1, [])
    | Except.ok r =>
      let audioFile := mkAudioFileRec bookId chapter.id voice language r
      (ChapterOutcome.generated chapter.id audioFile r.cost r.duration, 1, [audioFile])

/-- `chapters.slice(i, i + batchSize)` batching: split into fixed-size
batches (fuel-driven structural recursion). -/
def batchesGo (size : Nat) : Nat → List ChapterRec → List (List ChapterRec)
  | 0, _ => []
  | fuel + 1, l => if l.isEmpty then [] else l.take size :: batchesGo size fuel (l.drop size)

def batchesOf (size : Nat) (l : List ChapterRec) : List (List ChapterRec) :=
  batchesGo size l.length l

structure BookRec where
  id : String
  chapters : List ChapterRec
deriving DecidableEq, Repr

structure BookAudioResponse where
  chaptersProcessed : Nat
  successful : Nat
  failed : Nat
  totalCost : ℚ
  totalDuration : ℚ
  results : List ChapterOutcome
deriving DecidableEq, Repr

inductive BookAudioResult where
  | notFound : BookAudioResult
  | costRejected (totalCost : ℚ) : BookAudioResult
  | thrown (msg : String) : BookAudioResult
  | completed (response : BookAudioResponse) : BookAudioResult
deriving DecidableEq, Repr

structure BookAudioTrace where
  result : BookAudioResult
  /-- The successive writes to `book.audioGenerationStatus`. -/
  statusWrites : List String
  providerCalls : Nat
  createdAudioFiles : List AudioFileRec
deriving DecidableEq, Repr

/-- `totalCost` estimation loop of the book handler (lines 135–139); an
unknown voice throws out of the handler. -/
def totalEstimate (chapters : List ChapterRec) (voice : String) : Except String ℚ :=
  chapters.foldl
    (fun acc c => do
      let a ← acc
      let e ← estimateCost c.content voice
      pure (a + e.1))
    (Except.ok 0)

/-- The final statistics of the batch job (lines 223–252): counts of
`generated` and `failed` entries and the totals over the successful ones. -/
def bookTotals (results : List ChapterOutcome) : BookAudioResponse :=
  ⟨results.length,
    (results.filter (fun r => r.status == "generated")).length,
    (results.filter (fun r => r.status == "failed")).length,
    ((results.filter (fun r => r.status == "generated")).map ChapterOutcome.cost).sum,
    ((results.filter (fun r => r.status == "generated")).map ChapterOutcome.duration).sum,
    results⟩

/-- The final status written on the book (line 234):
`failed.length === 0 ? 'COMPLETED' : 'COMPLETED'`. -/
def finalStatusWrite (results : List ChapterOutcome) : String :=
  if (results.filter (fun r => r.status == "failed")).length == 0 then "COMPLETED"
  else "COMPLETED"

theorem finalStatusWrite_eq (results : List ChapterOutcome) :
    finalStatusWrite results = "COMPLETED" := by
  unfold finalStatusWrite
  exact ite_self _

/-- The `POST /books/:bookId/audio/generate` handler (`part_001`, lines
115–262): 404 on a missing book; reject with 400 when the projected
total cost exceeds $1.00; otherwise write `PROCESSING`, process the
chapters in batches of 3 (each batch fully awaited; one member's
failure is captured in its entry and aborts nothing), then write the
final status — `COMPLETED` in the success path whether or not entries
failed; `FAILED` is written only by the top-level catch handler, which
the throwing cost estimation reaches. -/
def generateBookAudio (books : List BookRec) (audioFiles : List AudioFileRec)
    (synth : TTSRequest → Except String TTSResult) (bookId voice : String)
    (language : Option String) (speed : Option ℚ) (provider : Option String) :
    BookAudioTrace :=
  match books.find? (fun b => b.id == bookId) with
  | none => ⟨BookAudioResult.notFound, [], 0, []⟩
  | some book =>
    match totalEstimate book.chapters voice with
    | Except.error m => ⟨BookAudioResult.thrown m, ["FAILED"], 0, []⟩
    | Except.ok totalCost =>
      if totalCost > 1.00 then ⟨BookAudioResult.costRejected totalCost, [], 0, []⟩
      else
        let processed := ((batchesOf 3 book.chapters).map
          (fun batch => batch.map
            (processBookChapter audioFiles synth bookId voice language speed provider))).flatten
        ⟨BookAudioResult.completed (bookTotals (processed.map (fun p => p.1))),
          ["PROCESSING", finalStatusWrite (processed.map (fun p => p.1))],
          (processed.map (fun p => p.2.1)).sum,
          (processed.map (fun p => p.2.2)).flatten⟩

/-! ## Sentence segmentation (`EPubService.preprocessForAudio`) -/

/-- A run of sentence-terminal punctuation splits the text
(the JS regex class of `.`, `!`, `?`). -/
def isSentenceTerminal (c : Char) : Bool := c = '.' || c = '!' || c = '?'

/-- JS `processedText.split(/[.!?]+/)`: split at every maximal run of
terminal punctuation, keeping empty boundary pieces (fuel-driven structural
recursion so the kernel can evaluate it; every step consumes at least one
character, so the text length is enough fuel). -/
def splitSentencesGo : Nat → List Char → List (List Char)
  | 0, _ => [[]]
  | _ + 1, [] => [[]]
  | fuel + 1, c :: rest =>
    if isSentenceTerminal c then
      [] :: splitSentencesGo fuel (rest.dropWhile isSentenceTerminal)
    else
      match splitSentencesGo fuel rest with
      | [] => [[c]]
      | p :: ps => (c :: p) :: ps

def splitSentences (cs : List Char) : List (List Char) := splitSentencesGo cs.length cs

/-- JS `String.prototype.trim` (ASCII whitespace fragment). -/
def trimJS (cs : List Char) : List Char :=
  ((cs.dropWhile isJsSpace).reverse.dropWhile isJsSpace).reverse

/-- A text segment with character offsets (`start`/`end` of the source;
`end` is a reserved word in Lean, hence `endOff`). -/
structure TextSegment where
  text : List Char
  start : Nat
  endOff : Nat
deriving DecidableEq, Repr

/-- The offset-assignment loop of `preprocessForAudio` (lines 410–423):
each retained (trimmed, non-empty) sentence becomes a segment
`[currentPosition, currentPosition + length)` and the position advances
by the length plus 1 for the stripped delimiter. -/
def buildSegments (pos : Nat) : List (List Char) → List TextSegment
  | [] => []
  | s :: ss =>
    if (trimJS s).length > 0 then
      ⟨trimJS s, pos, pos + (trimJS s).length⟩ ::
        buildSegments (pos + (trimJS s).length + 1) ss
    else buildSegments pos ss

/-- The segment list produced by `preprocessForAudio` for the
(normalized) chapter text: split into sentences, keep those with
non-empty trimmed content, assign offsets.  The abbreviation
substitution that precedes the split is an arbitrary transformation of
the input text, so quantifying over all input texts covers the composed
pipeline. -/
def preprocessSegments (processedText : List Char) : List TextSegment :=
  buildSegments 0
    ((splitSentences processedText).filter (fun s => (trimJS s).length > 0))

/-! ## Claim C1 — per-chapter cost guard -/

/-- C1: every generate-chapter-audio request whose projected cost exceeds the
$0.10 per-chapter cap is rejected with a cost-exceeded 400 error before any
provider call: the synthesis oracle is invoked zero times and no artifact
record is created. -/
theorem c1_cost_guard (chapters : List ChapterRec) (audioFiles : List AudioFileRec)
    (synth : TTSRequest → Except String TTSResult) (bookId chapterId voice : String)
    (language : Option String) (speed : Option ℚ) (provider : Option String)
    (chapter : ChapterRec) (est : ℚ × String)
    (hfind : chapters.find? (fun c => c.id == chapterId) = some chapter)
    (hbook : chapter.bookId = bookId)
    (hnoex : audioFiles.find? (matchesArtifact bookId chapterId voice) = none)
    (hest : estimateCost chapter.content voice = Except.ok est)
    (hcost : est.1 > 0.10) :
    (generateChapterAudio chapters audioFiles synth bookId chapterId voice
        language speed provider).result = ChapterAudioResult.costRejected ∧
    (generateChapterAudio chapters audioFiles synth bookId chapterId voice
        language speed provider).result.httpStatus = 400 ∧
    (generateChapterAudio chapters audioFiles synth bookId chapterId voice
        language speed provider).providerCalls = 0 ∧
    (generateChapterAudio chapters audioFiles synth bookId chapterId voice
        language speed provider).createdAudioFiles = [] := by
  have hguard : generateChapterAudio chapters audioFiles synth bookId chapterId voice
      language speed provider = ⟨ChapterAudioResult.costRejected, 0, [], 0⟩ := by
    unfold generateChapterAudio
    rw [hfind]
    simp only [hbook, ne_eq, not_true_eq_false, if_false, hnoex, hest]
    rw [if_pos hcost]
  rw [hguard]
  exact ⟨rfl, rfl, rfl, rfl⟩

/-- C1 witness: a 9,375-character chapter priced with a Google standard voice
projects exactly $0.15 against the $0.10 cap and is rejected with zero
provider calls and no created record. -/
theorem c1_cost_guard_witness :
    (generateChapterAudio [⟨"ch1", "b1", 1, List.replicate 9375 'a'⟩] []
        (fun _ => Except.error "unavailable") "b1" "ch1" "en-US-Standard-A"
        none none none).result = ChapterAudioResult.costRejected ∧
    (generateChapterAudio [⟨"ch1", "b1", 1, List.replicate 9375 'a'⟩] []
        (fun _ => Except.error "unavailable") "b1" "ch1" "en-US-Standard-A"
        none none none).result.httpStatus = 400 ∧
    (generateChapterAudio [⟨"ch1", "b1", 1, List.replicate 9375 'a'⟩] []
        (fun _ => Except.error "unavailable") "b1" "ch1" "en-US-Standard-A"
        none none none).providerCalls = 0 ∧
    (generateChapterAudio [⟨"ch1", "b1", 1, List.replicate 9375 'a'⟩] []
        (fun _ => Except.error "unavailable") "b1" "ch1" "en-US-Standard-A"
        none none none).createdAudioFiles = [] := by
  refine c1_cost_guard _ _ _ _ _ _ _ _ _ ⟨"ch1", "b1", 1, List.replicate 9375 'a'⟩
    ((3 : ℚ) / 20, "google") rfl rfl rfl ?hest ?hcost
  case hest =>
    have h1 : availableVoices.find? (fun v => v.id == "en-US-Standard-A") =
        some ⟨"en-US-Standard-A", "English (US) - Standard A", "en-US", "female",
          "google", 0.000016⟩ := rfl
    have h2 : (List.replicate 9375 'a').length = 9375 := List.length_replicate 9375 'a'
    simp only [estimateCost, h1, h2]
    norm_num [jsRound]
  case hcost => norm_num

/-! ## Claim C5 — idempotent re-requests for an existing (chapter, voice) pair -/

/-- C5: when an artifact record already exists for the (chapter, voice) pair,
both the single-chapter route and the per-chapter step of the batch job
return the existing artifact with zero provider calls, create no record and
charge no cost (the batch cost aggregation counts only `generated` entries,
and the `exists` entry carries zero cost). -/
theorem c5_existing_artifact_idempotent (audioFiles : List AudioFileRec)
    (synth : TTSRequest → Except String TTSResult) (bookId voice : String)
    (language : Option String) (speed : Option ℚ) (provider : Option String) :
    (∀ (chapters : List ChapterRec) (chapterId : String) (chapter : ChapterRec)
        (existingAudio : AudioFileRec),
      chapters.find? (fun c => c.id == chapterId) = some chapter →
      chapter.bookId = bookId →
      audioFiles.find? (matchesArtifact bookId chapterId voice) = some existingAudio →
      generateChapterAudio chapters audioFiles synth bookId chapterId voice
          language speed provider =
        ⟨ChapterAudioResult.alreadyExists existingAudio, 0, [], 0⟩) ∧
    (∀ (chapter : ChapterRec) (existingAudio : AudioFileRec),
      audioFiles.find? (matchesArtifact bookId chapter.id voice) = some existingAudio →
      processBookChapter audioFiles synth bookId voice language speed provider chapter =
          (ChapterOutcome.existing chapter.id existingAudio, 0, []) ∧
        (ChapterOutcome.existing chapter.id existingAudio).status ≠ "generated" ∧
        (ChapterOutcome.existing chapter.id existingAudio).cost = 0) := by
  constructor
  · intro chapters chapterId chapter existingAudio hfind hbook hex
    unfold generateChapterAudio
    rw [hfind]
    simp only [hbook, ne_eq, not_true_eq_false, if_false, hex]
  · intro chapter existingAudio hex
    refine ⟨?_, by simp [ChapterOutcome.status], rfl⟩
    unfold processBookChapter
    rw [hex]

/-- C5 witness at a concrete store: one existing artifact for
(chapter `ch1`, voice `v1`); both paths return it untouched. -/
theorem c5_existing_artifact_idempotent_witness :
    (generateChapterAudio [⟨"ch1", "b1", 1, ['h', 'i']⟩]
        [⟨"b1", "ch1", "f.mp3", 100, 1, "v1", "en-US", "GOOGLE", 0.01⟩]
        (fun _ => Except.error "unavailable") "b1" "ch1" "v1" none none none =
      ⟨ChapterAudioResult.alreadyExists
          ⟨"b1", "ch1", "f.mp3", 100, 1, "v1", "en-US", "GOOGLE", 0.01⟩, 0, [], 0⟩) ∧
    (processBookChapter [⟨"b1", "ch1", "f.mp3", 100, 1, "v1", "en-US", "GOOGLE", 0.01⟩]
        (fun _ => Except.error "unavailable") "b1" "v1" none none none
        ⟨"ch1", "b1", 1, ['h', 'i']⟩ =
      (ChapterOutcome.existing "ch1"
          ⟨"b1", "ch1", "f.mp3", 100, 1, "v1", "en-US", "GOOGLE", 0.01⟩, 0, [])) := by
  constructor
  · exact (c5_existing_artifact_idempotent
      [⟨"b1", "ch1", "f.mp3", 100, 1, "v1", "en-US", "GOOGLE", 0.01⟩]
      (fun _ => Except.error "unavailable") "b1" "v1" none none none).1
      [⟨"ch1", "b1", 1, ['h', 'i']⟩] "ch1" ⟨"ch1", "b1", 1, ['h', 'i']⟩
      ⟨"b1", "ch1", "f.mp3", 100, 1, "v1", "en-US", "GOOGLE", 0.01⟩ rfl rfl rfl
  · exact ((c5_existing_artifact_idempotent
      [⟨"b1", "ch1", "f.mp3", 100, 1, "v1", "en-US", "GOOGLE", 0.01⟩]
      (fun _ => Except.error "unavailable") "b1" "v1" none none none).2
      ⟨"ch1", "b1", 1, ['h', 'i']⟩
      ⟨"b1", "ch1", "f.mp3", 100, 1, "v1", "en-US", "GOOGLE", 0.01⟩ rfl).1

/-! ## Claim C6 — provider selection by text length -/

/-- C6 counterexample: at exactly 5,000 characters (inside the claim's
medium band of 1,000–5,000, which it maps to the highest-quality
provider `google`) the code selects `azure`, because the source guard is
the strict `length < 5000`. -/
theorem c6_provider_at_5000_counterexample :
    selectedProvider none (List.replicate 5000 'a') = "azure" ∧ "azure" ≠ "google" := by
  constructor
  · unfold selectedProvider getBestProvider
    rw [List.length_replicate]
    rfl
  · decide

/-- C6 amended: with no explicit provider the choice depends only on text
length — under 1,000 characters `amazon`, from 1,000 up to (but excluding)
5,000 `google`, and from 5,000 on `azure`. -/
theorem c6_provider_selection (text : List Char) :
    (text.length < 1000 → selectedProvider none text = "amazon") ∧
    (1000 ≤ text.length → text.length < 5000 → selectedProvider none text = "google") ∧
    (5000 ≤ text.length → selectedProvider none text = "azure") := by
  refine ⟨fun h => ?_, fun h1 h2 => ?_, fun h => ?_⟩ <;>
    unfold selectedProvider getBestProvider
  · rw [if_pos h]
  · rw [if_neg (by omega), if_pos h2]
  · rw [if_neg (by omega), if_neg (by omega)]

/-- C6 witness: the three bands at 500, 3,000 and 5,000 characters. -/
theorem c6_provider_selection_witness :
    selectedProvider none (List.replicate 500 'a') = "amazon" ∧
    selectedProvider none (List.replicate 3000 'a') = "google" ∧
    selectedProvider none (List.replicate 5000 'a') = "azure" :=
  ⟨(c6_provider_selection (List.replicate 500 'a')).1
      (by simp only [List.length_replicate]; omega),
   (c6_provider_selection (List.replicate 3000 'a')).2.1
      (by simp only [List.length_replicate]; omega)
      (by simp only [List.length_replicate]; omega),
   (c6_provider_selection (List.replicate 5000 'a')).2.2
      (by simp only [List.length_replicate]; omega)⟩

/-! ## Claim C7 — streaming rate-limit exemption -/

/-- C7 counterexample: a request presenting the validator `deadbeef`, which
does not match the cached artifact's ETag (the MD5 of its bytes), is
nevertheless exempt from the streaming limiter: the skip predicate tests
only presence of `If-None-Match`, never a match. -/
theorem c7_exemption_counterexample :
    audioStreamingLimitSkip (some "deadbeef") = true ∧
    (cacheAudioFile "a1" [97]).etag ≠ "deadbeef" := by
  constructor
  · rfl
  · decide

/-- C7 amended: a stream request is exempt from the streaming request-rate
limiter exactly when it presents any non-empty `If-None-Match` header,
whether or not the value matches the artifact's ETag. -/
theorem c7_skip_iff_header_present (ifNoneMatch : Option String) :
    audioStreamingLimitSkip ifNoneMatch = true ↔
      ∃ s, ifNoneMatch = some s ∧ s ≠ "" := by
  cases ifNoneMatch with
  | none => simp [audioStreamingLimitSkip]
  | some s => simp [audioStreamingLimitSkip]

/-! ## Claim C8 — hour-H ledger bucket cannot affect hour H+2 -/

theorem costKey_hour_inj (u : String) {h1 h2 : Nat}
    (h : costKey u h1 = costKey u h2) : h1 = h2 := by
  have h' : ('c' :: 'o' :: 's' :: 't' :: '_' :: u.data) ++ '_' :: natDec h1 =
      ('c' :: 'o' :: 's' :: 't' :: '_' :: u.data) ++ '_' :: natDec h2 :=
    congrArg String.data h
  have h'' := List.append_cancel_left h'
  injection h'' with _ h3
  exact natDec_inj h3

/-- C8: cost accumulated into a requester's hour-`H` bucket has no effect on
the cost-guard decision for any request the requester makes during hour
`H + 2`: the tracker is keyed by the current hour, so the hour-`H` bucket is
never consulted then. -/
theorem c8_ledger_hour_isolation (costTracker : String → Option ℚ)
    (userId : String) (H : Nat) (c maxCost : ℚ) (nowMs : Nat)
    (bodyText : Option (List Char))
    (hnow : hourBucket nowMs = H + 2) :
    costLimitDecision maxCost
        (updateCostTracking costTracker (costKey userId H) c)
        userId nowMs bodyText =
      costLimitDecision maxCost costTracker userId nowMs bodyText := by
  have hkey : costKey userId (H + 2) ≠ costKey userId H := by
    intro he
    have := costKey_hour_inj userId he
    omega
  unfold costLimitDecision
  rw [hnow]
  simp only [updateCostTracking, if_neg hkey]

/-- C8 witness: a $5 accumulation in the hour-0 bucket leaves the decision
at `nowMs = 7,200,000` (hour 2) unchanged. -/
theorem c8_ledger_hour_isolation_witness :
    costLimitDecision 1 (updateCostTracking (fun _ => none) (costKey "u" 0) 5)
        "u" 7200000 none =
      costLimitDecision 1 (fun _ => none) "u" 7200000 none :=
  c8_ledger_hour_isolation (fun _ => none) "u" 0 5 1 7200000 none (by decide)

/-! ## Claim C9 — segment offsets are contiguous, non-overlapping, ordered -/

theorem buildSegments_props :
    ∀ (l : List (List Char)) (pos : Nat),
      (∀ s ∈ l, 0 < (trimJS s).length) →
      (∀ seg ∈ buildSegments pos l, seg.start < seg.endOff ∧ pos ≤ seg.start) ∧
      (∀ seg, (buildSegments pos l).head? = some seg → seg.start = pos) ∧
      List.Chain' (fun a b => b.start = a.endOff + 1) (buildSegments pos l) ∧
      List.Chain' (fun a b => a.start < b.start ∧ a.endOff < b.start)
        (buildSegments pos l) := by
  intro l
  induction l with
  | nil =>
    intro pos h
    refine ⟨by simp [buildSegments], by simp [buildSegments], ?_, ?_⟩ <;>
      simp [buildSegments]
  | cons s ss ih =>
    intro pos h
    have hs : 0 < (trimJS s).length := h s (List.mem_cons_self _ _)
    have hss : ∀ x ∈ ss, 0 < (trimJS x).length :=
      fun x hx => h x (List.mem_cons_of_mem _ hx)
    have hb : buildSegments pos (s :: ss) =
        ⟨trimJS s, pos, pos + (trimJS s).length⟩ ::
          buildSegments (pos + (trimJS s).length + 1) ss := by
      simp only [buildSegments]
      rw [if_pos hs]
    obtain ⟨ihA, ihH, ihC, ihD⟩ := ih (pos + (trimJS s).length + 1) hss
    rw [hb]
    refine ⟨?_, ?_, ?_, ?_⟩
    · intro seg hseg
      rcases List.mem_cons.mp hseg with rfl | hseg'
      · refine ⟨?_, ?_⟩
        · show pos < pos + (trimJS s).length
          omega
        · show pos ≤ pos
          exact le_refl _
      · obtain ⟨h1, h2⟩ := ihA seg hseg'
        exact ⟨h1, by omega⟩
    · intro seg hhead
      simp only [List.head?_cons, Option.some.injEq] at hhead
      rw [← hhead]
    · rw [List.chain'_cons']
      refine ⟨?_, ihC⟩
      intro b hb'
      rw [ihH b (Option.mem_def.mp hb')]
    · rw [List.chain'_cons']
      refine ⟨?_, ihD⟩
      intro b hb'
      have hbs := ihH b (Option.mem_def.mp hb')
      constructor
      · show pos < b.start
        omega
      · show pos + (trimJS s).length < b.start
        omega

/-- C9: for every (normalized) chapter text, the segments produced by the
audio-preprocessing split are internally consistent: every retained segment
has start strictly below end, consecutive segments have strictly increasing
and non-overlapping offsets, and each next start is the previous end
advanced by 1 for the stripped delimiter. -/
theorem c9_segments_contiguous (processedText : List Char) :
    (∀ seg ∈ preprocessSegments processedText, seg.start < seg.endOff) ∧
    List.Chain' (fun a b => b.start = a.endOff + 1)
      (preprocessSegments processedText) ∧
    List.Chain' (fun a b => a.start < b.start ∧ a.endOff < b.start)
      (preprocessSegments processedText) := by
  have hall : ∀ s ∈ (splitSentences processedText).filter
      (fun s => (trimJS s).length > 0), 0 < (trimJS s).length := by
    intro s hs
    have h2 := (List.mem_filter.mp hs).2
    simpa using h2
  obtain ⟨hA, _, hC, hD⟩ := buildSegments_props _ 0 hall
  exact ⟨fun seg hseg => (hA seg hseg).1, hC, hD⟩

/-- C9 witness: the first segment of a two-sentence chapter, with its
membership discharged by evaluation. -/
theorem c9_segments_contiguous_witness :
    (⟨"Hello world".data, 0, 11⟩ : TextSegment).start <
      (⟨"Hello world".data, 0, 11⟩ : TextSegment).endOff :=
  (c9_segments_contiguous "Hello world. How are you? ".data).1
    ⟨"Hello world".data, 0, 11⟩ (by decide)

/-! ## Claim C3 — ETag versus the bytes actually served -/

/-- C3 counterexample: streaming the two-byte artifact `[97, 98]` with
`Range: bytes=0-0` serves only its first byte, but the ETag header is the
MD5 of the full buffer, which differs from the MD5 of the served byte. -/
theorem c3_partial_etag_counterexample :
    (handleStream (cacheAudioFile "a1" [97, 98]) (some "bytes=0-0")).status = 206 ∧
    generateETag ((handleStream (cacheAudioFile "a1" [97, 98]) (some "bytes=0-0")).body) ≠
      (handleStream (cacheAudioFile "a1" [97, 98]) (some "bytes=0-0")).etag := by
  constructor
  · rfl
  · decide

/-- C3 amended: the ETag served always equals the content hash of the full
cached artifact; for a full 200 response the body is the whole artifact, so
there the ETag equals the hash of the exact bytes served — but a 206 partial
response keeps the full-artifact ETag over a sliced body. -/
theorem c3_etag_matches_full_artifact (id : String) (buf : List Nat)
    (rangeHeader : Option String) :
    (handleStream (cacheAudioFile id buf) rangeHeader).etag = generateETag buf ∧
    (handleStream (cacheAudioFile id buf) none).body = buf ∧
    generateETag ((handleStream (cacheAudioFile id buf) none).body) =
      (handleStream (cacheAudioFile id buf) none).etag := by
  refine ⟨?_, rfl, rfl⟩
  cases rangeHeader with
  | none => rfl
  | some r => rfl

/-! ## Claim C2 — byte-range correctness -/

theorem strOf_data (cs : List Char) : (strOf cs).data = cs := rfl

/-- C2 counterexample: on an artifact of only 50 bytes, `Range: bytes=0-99`
yields a 206 whose body has 50 bytes, not the 100 the claim asserts for
every size `S` (and its `Content-Range` still reads `bytes 0-99/50`). -/
theorem c2_short_artifact_counterexample :
    (handleStream (cacheAudioFile "a1" (List.replicate 50 0))
        (some "bytes=0-99")).body.length = 50 ∧
    (handleStream (cacheAudioFile "a1" (List.replicate 50 0))
        (some "bytes=0-99")).body.length ≠ 100 ∧
    (handleStream (cacheAudioFile "a1" (List.replicate 50 0))
        (some "bytes=0-99")).status = 206 ∧
    (handleStream (cacheAudioFile "a1" (List.replicate 50 0))
        (some "bytes=0-99")).contentRange = some "bytes 0-99/50" := by
  refine ⟨by decide, by decide, rfl, by decide⟩

/-- C2 amended: range correctness holds with the requested range clamped to
the artifact.  On an artifact of `S ≥ 100` bytes, `Range: bytes=0-99`
yields 206 with exactly the first 100 bytes and
`Content-Range: bytes 0-99/S`; on an artifact of `S < 100` bytes the same
header yields a 206 whose body is the whole `S`-byte artifact
(`Buffer.slice` clamps) while `Content-Range` still reads `bytes 0-99/S`;
on an artifact of exactly 1,048,576 bytes, `Range: bytes=1048000-` yields
206 with exactly bytes 1,048,000–1,048,575 (576 bytes) and
`Content-Range: bytes 1048000-1048575/1048576`; with no `Range` header the
response is 200 with exactly the `S` artifact bytes. -/
theorem c2_range_correctness (id : String) (buf : List Nat) :
    (100 ≤ buf.length →
      (handleStream (cacheAudioFile id buf) (some "bytes=0-99")).status = 206 ∧
      (handleStream (cacheAudioFile id buf) (some "bytes=0-99")).body = buf.take 100 ∧
      (handleStream (cacheAudioFile id buf) (some "bytes=0-99")).body.length = 100 ∧
      (handleStream (cacheAudioFile id buf) (some "bytes=0-99")).contentRange =
        some ("bytes 0-99/" ++ natDecStr buf.length)) ∧
    (buf.length < 100 →
      (handleStream (cacheAudioFile id buf) (some "bytes=0-99")).status = 206 ∧
      (handleStream (cacheAudioFile id buf) (some "bytes=0-99")).body = buf ∧
      (handleStream (cacheAudioFile id buf) (some "bytes=0-99")).contentRange =
        some ("bytes 0-99/" ++ natDecStr buf.length)) ∧
    (buf.length = 1048576 →
      (handleStream (cacheAudioFile id buf) (some "bytes=1048000-")).status = 206 ∧
      (handleStream (cacheAudioFile id buf) (some "bytes=1048000-")).body =
        buf.drop 1048000 ∧
      (handleStream (cacheAudioFile id buf) (some "bytes=1048000-")).body.length = 576 ∧
      (handleStream (cacheAudioFile id buf) (some "bytes=1048000-")).contentRange =
        some "bytes 1048000-1048575/1048576") ∧
    ((handleStream (cacheAudioFile id buf) none).status = 200 ∧
      (handleStream (cacheAudioFile id buf) none).body = buf ∧
      (handleStream (cacheAudioFile id buf) none).body.length = buf.length) := by
  have hresp0 : handleStream (cacheAudioFile id buf) (some "bytes=0-99") =
      { status := 206
        contentType := "audio/mpeg"
        contentLength := "100"
        etag := generateETag buf
        contentRange := some (strOf ('b' :: 'y' :: 't' :: 'e' :: 's' :: ' ' :: '0' ::
          '-' :: '9' :: '9' :: '/' :: natDec buf.length))
        body := bufferSlice buf (JSNum.int 0) (JSNum.int 100) } := rfl
  have h0 : bufIndex buf.length (JSNum.int 0) = 0 := by
    simp only [bufIndex]
    rw [if_neg (by norm_num)]
    simp
  refine ⟨fun h => ?_, fun h => ?_, fun hlen => ?_, rfl, rfl, rfl⟩
  · rw [hresp0]
    have h100 : bufIndex buf.length (JSNum.int 100) = 100 := by
      simp only [bufIndex]
      rw [if_neg (by norm_num)]
      rw [show Int.toNat 100 = 100 from rfl]
      exact min_eq_left h
    have hbody : bufferSlice buf (JSNum.int 0) (JSNum.int 100) = buf.take 100 := by
      unfold bufferSlice
      rw [h100, h0, List.drop_zero]
    refine ⟨rfl, hbody, ?_, rfl⟩
    show (bufferSlice buf (JSNum.int 0) (JSNum.int 100)).length = 100
    rw [hbody, List.length_take]
    exact min_eq_left h
  · rw [hresp0]
    have h100 : bufIndex buf.length (JSNum.int 100) = buf.length := by
      simp only [bufIndex]
      rw [if_neg (by norm_num)]
      rw [show Int.toNat 100 = 100 from rfl]
      exact min_eq_right (le_of_lt h)
    have hbody : bufferSlice buf (JSNum.int 0) (JSNum.int 100) = buf := by
      unfold bufferSlice
      rw [h100, h0, List.drop_zero, List.take_length]
    exact ⟨rfl, hbody, rfl⟩
  · have hresp : handleStream (cacheAudioFile id buf) (some "bytes=1048000-") =
        { status := 206
          contentType := "audio/mpeg"
          contentLength := strOf (jsToStr (jsAdd (jsSub (JSNum.int ((buf.length : Int) - 1))
            (JSNum.int 1048000)) (JSNum.int 1)))
          etag := generateETag buf
          contentRange := some (strOf ('b' :: 'y' :: 't' :: 'e' :: 's' :: ' ' :: '1' ::
            '0' :: '4' :: '8' :: '0' :: '0' :: '0' :: '-' ::
            (jsToStr (JSNum.int ((buf.length : Int) - 1)) ++ '/' :: natDec buf.length)))
          body := bufferSlice buf (JSNum.int 1048000)
            (jsAdd (JSNum.int ((buf.length : Int) - 1)) (JSNum.int 1)) } := rfl
    rw [hresp, hlen]
    have hcast : ((1048576 : Nat) : Int) - 1 = 1048575 := by norm_num
    rw [hcast]
    have hadd : jsAdd (JSNum.int 1048575) (JSNum.int 1) = JSNum.int 1048576 := rfl
    have he : bufIndex buf.length (JSNum.int 1048576) = 1048576 := by
      simp only [bufIndex]
      rw [if_neg (by norm_num)]
      rw [show Int.toNat 1048576 = 1048576 from rfl, hlen]
      simp
    have hst : bufIndex buf.length (JSNum.int 1048000) = 1048000 := by
      simp only [bufIndex]
      rw [if_neg (by norm_num)]
      rw [show Int.toNat 1048000 = 1048000 from rfl, hlen]
      exact min_eq_left (by norm_num)
    have hbodyB : bufferSlice buf (JSNum.int 1048000)
        (jsAdd (JSNum.int 1048575) (JSNum.int 1)) = buf.drop 1048000 := by
      rw [hadd]
      unfold bufferSlice
      rw [he, hst]
      rw [show (1048576 : Nat) = buf.length from hlen.symm, List.take_length]
    refine ⟨rfl, hbodyB, ?_, rfl⟩
    show (bufferSlice buf (JSNum.int 1048000)
        (jsAdd (JSNum.int 1048575) (JSNum.int 1))).length = 576
    rw [hbodyB, List.length_drop, hlen]

/-- C2 witness: a 1,048,576-byte artifact exercises the in-bounds range
scenarios and the full download; a 50-byte artifact exercises the clamped
undersized case. -/
theorem c2_range_correctness_witness :
    (handleStream (cacheAudioFile "a1" (List.replicate 1048576 0))
        (some "bytes=0-99")).status = 206 ∧
    (handleStream (cacheAudioFile "a1" (List.replicate 1048576 0))
        (some "bytes=0-99")).body.length = 100 ∧
    (handleStream (cacheAudioFile "a2" (List.replicate 50 0))
        (some "bytes=0-99")).body = List.replicate 50 0 ∧
    (handleStream (cacheAudioFile "a1" (List.replicate 1048576 0))
        (some "bytes=1048000-")).body.length = 576 ∧
    (handleStream (cacheAudioFile "a1" (List.replicate 1048576 0))
        (some "bytes=1048000-")).contentRange = some "bytes 1048000-1048575/1048576" ∧
    (handleStream (cacheAudioFile "a1" (List.replicate 1048576 0)) none).status = 200 := by
  refine ⟨((c2_range_correctness "a1" (List.replicate 1048576 0)).1 ?h1).1,
    ((c2_range_correctness "a1" (List.replicate 1048576 0)).1 ?h1).2.2.1,
    ((c2_range_correctness "a2" (List.replicate 50 0)).2.1 ?h3).2.1,
    ((c2_range_correctness "a1" (List.replicate 1048576 0)).2.2.1 ?h2).2.2.1,
    ((c2_range_correctness "a1" (List.replicate 1048576 0)).2.2.1 ?h2).2.2.2,
    (c2_range_correctness "a1" (List.replicate 1048576 0)).2.2.2.1⟩
  case h1 => simp only [List.length_replicate]; omega
  case h3 => simp only [List.length_replicate]; omega
  case h2 => simp only [List.length_replicate]

/-! ## Claim C10 — suffix-form `Range: bytes=-N` -/

/-- C10: a suffix range `bytes=-N` never throws: the empty start parses to
`NaN`, the response is a 206 whose body is the slice from byte 0 through
byte `N` (`Buffer.slice` coerces the `NaN` start to 0), the emitted
`Content-Range` carries the unparsed `NaN` start, the `Content-Length`
reads `NaN`, and the body is not the final `N` bytes of the artifact. -/
theorem c10_suffix_range (id : String) (buf : List Nat) (N : Nat)
    (h : N + 1 ≤ buf.length) :
    parseIntJS [] = JSNum.nan ∧
    (handleStream (cacheAudioFile id buf)
      (some (strOf ('b' :: 'y' :: 't' :: 'e' :: 's' :: '=' :: '-' :: natDec N)))).status = 206 ∧
    (handleStream (cacheAudioFile id buf)
      (some (strOf ('b' :: 'y' :: 't' :: 'e' :: 's' :: '=' :: '-' :: natDec N)))).body =
        buf.take (N + 1) ∧
    (handleStream (cacheAudioFile id buf)
      (some (strOf ('b' :: 'y' :: 't' :: 'e' :: 's' :: '=' :: '-' :: natDec N)))).contentRange =
        some (strOf ('b' :: 'y' :: 't' :: 'e' :: 's' :: ' ' :: 'N' :: 'a' :: 'N' :: '-' ::
          (natDec N ++ '/' :: natDec buf.length))) ∧
    (handleStream (cacheAudioFile id buf)
      (some (strOf ('b' :: 'y' :: 't' :: 'e' :: 's' :: '=' :: '-' :: natDec N)))).contentLength =
        "NaN" ∧
    (handleStream (cacheAudioFile id buf)
      (some (strOf ('b' :: 'y' :: 't' :: 'e' :: 's' :: '=' :: '-' :: natDec N)))).body ≠
        buf.drop (buf.length - N) := by
  obtain ⟨c, rest, hcr⟩ : ∃ c rest, natDec N = c :: rest := by
    cases hnd : natDec N with
    | nil => exact absurd hnd (natDec_ne_nil N)
    | cons c rest => exact ⟨c, rest, rfl⟩
  have hrem : removeFirstSub ('b' :: 'y' :: 't' :: 'e' :: 's' :: '=' :: '-' :: natDec N)
      ['b', 'y', 't', 'e', 's', '='] = '-' :: natDec N :=
    removeFirstSub_append ['b', 'y', 't', 'e', 's', '='] ('-' :: natDec N)
  have hsplit : splitOnChar '-' ('-' :: natDec N) = [[], natDec N] := by
    rw [splitOnChar_cons_sep]
    rw [splitOnChar_of_no_sep '-' (natDec N)
      (fun x hx => digit_ne_minus (natDec_all_digit N x hx))]
  have hparseN : parseIntJS (natDec N) = JSNum.int N := parseIntJS_natDec N
  have hnan : parseIntJS [] = JSNum.nan := rfl
  have hresp : handleStream (cacheAudioFile id buf)
      (some (strOf ('b' :: 'y' :: 't' :: 'e' :: 's' :: '=' :: '-' :: natDec N))) =
      { status := 206
        contentType := "audio/mpeg"
        contentLength := "NaN"
        etag := generateETag buf
        contentRange := some (strOf ('b' :: 'y' :: 't' :: 'e' :: 's' :: ' ' :: 'N' :: 'a' ::
          'N' :: '-' :: (natDec N ++ '/' :: natDec buf.length)))
        body := bufferSlice buf JSNum.nan (jsAdd (JSNum.int N) (JSNum.int 1)) } := by
    simp only [handleStream, strOf_data, hrem, hsplit, List.getD_cons_zero,
      List.getD_cons_succ, hnan]
    simp only [hcr]
    rw [← hcr, hparseN]
    rfl
  have hbody : bufferSlice buf JSNum.nan (jsAdd (JSNum.int N) (JSNum.int 1)) =
      buf.take (N + 1) := by
    have hadd : jsAdd (JSNum.int N) (JSNum.int 1) = JSNum.int ((N : Int) + 1) := rfl
    rw [hadd]
    unfold bufferSlice
    have hN1 : bufIndex buf.length (JSNum.int ((N : Int) + 1)) = N + 1 := by
      simp only [bufIndex]
      rw [if_neg (by omega)]
      have ht : ((N : Int) + 1).toNat = N + 1 := by omega
      rw [ht]
      exact min_eq_left h
    have h0 : bufIndex buf.length JSNum.nan = 0 := rfl
    rw [hN1, h0, List.drop_zero]
  refine ⟨rfl, ?_, ?_, ?_, ?_, ?_⟩
  · rw [hresp]
  · rw [hresp]
    exact hbody
  · rw [hresp]
  · rw [hresp]
  · rw [hresp]
    intro heq
    have hlen := congrArg List.length heq
    rw [hbody] at hlen
    rw [List.length_take, List.length_drop] at hlen
    have h1 : min (N + 1) buf.length = N + 1 := min_eq_left h
    omega

/-- C10 witness: a 100-byte artifact with `Range: bytes=-5` (the header built
from the decimal rendering of 5). -/
theorem c10_suffix_range_witness :
    (handleStream (cacheAudioFile "a1" (List.replicate 100 7))
      (some (strOf ('b' :: 'y' :: 't' :: 'e' :: 's' :: '=' :: '-' :: natDec 5)))).status = 206 ∧
    (handleStream (cacheAudioFile "a1" (List.replicate 100 7))
      (some (strOf ('b' :: 'y' :: 't' :: 'e' :: 's' :: '=' :: '-' :: natDec 5)))).body =
        (List.replicate 100 7).take 6 ∧
    (handleStream (cacheAudioFile "a1" (List.replicate 100 7))
      (some (strOf ('b' :: 'y' :: 't' :: 'e' :: 's' :: '=' :: '-' :: natDec 5)))).contentLength =
        "NaN" := by
  refine ⟨(c10_suffix_range "a1" (List.replicate 100 7) 5 ?h).2.1,
    (c10_suffix_range "a1" (List.replicate 100 7) 5 ?h).2.2.1,
    (c10_suffix_range "a1" (List.replicate 100 7) 5 ?h).2.2.2.2.1⟩
  case h => simp only [List.length_replicate]; omega

/-! ## Claim C4 — batch resilience under a single chapter failure -/

/-- Whether the synthesis oracle fails on the request built for a chapter. -/
def synthFails (synth : TTSRequest → Except String TTSResult) (voice : String)
    (language : Option String) (speed : Option ℚ) (provider : Option String)
    (c : ChapterRec) : Bool :=
  match synth ⟨c.content, voice, language.getD "en-US", speed.getD 1, provider⟩ with
  | Except.error _ => true
  | Except.ok _ => false

theorem batchesGo_map_flatten {α : Type} (f : ChapterRec → α) :
    ∀ (fuel : Nat) (l : List ChapterRec), l.length ≤ fuel →
      ((batchesGo 3 fuel l).map (fun batch => batch.map f)).flatten = l.map f := by
  intro fuel
  induction fuel with
  | zero =>
    intro l h
    have hl : l = [] := List.length_eq_zero.mp (by omega)
    subst hl
    rfl
  | succ fu ih =>
    intro l h
    simp only [batchesGo]
    by_cases he : l.isEmpty
    · rw [if_pos he]
      have hl : l = [] := by
        cases l with
        | nil => rfl
        | cons a as => simp at he
      subst hl
      rfl
    · rw [if_neg he]
      have hlen : 0 < l.length := by
        cases l with
        | nil => simp at he
        | cons a as => simp
      simp only [List.map_cons, List.flatten_cons]
      rw [ih (l.drop 3) (by rw [List.length_drop]; omega)]
      rw [← List.map_append, List.take_append_drop]

theorem batchesOf_map_flatten {α : Type} (f : ChapterRec → α) (l : List ChapterRec) :
    ((batchesOf 3 l).map (fun batch => batch.map f)).flatten = l.map f :=
  batchesGo_map_flatten f l.length l le_rfl

/-- C4: when the projected book cost passes the cap, no artifact pre-exists,
and exactly 1 of the N chapters fails during synthesis, the job completes:
the status writes are `PROCESSING` then `COMPLETED` (never `FAILED` for a
per-chapter failure), and the aggregate reports N−1 successes and 1 failure
over N processed chapters. -/
theorem c4_batch_resilience (books : List BookRec) (audioFiles : List AudioFileRec)
    (synth : TTSRequest → Except String TTSResult) (bookId voice : String)
    (language : Option String) (speed : Option ℚ) (provider : Option String)
    (book : BookRec) (totalCost : ℚ)
    (hfind : books.find? (fun b => b.id == bookId) = some book)
    (hest : totalEstimate book.chapters voice = Except.ok totalCost)
    (hcap : ¬totalCost > 1.00)
    (hnoex : ∀ c ∈ book.chapters,
      audioFiles.find? (matchesArtifact bookId c.id voice) = none)
    (hfail : book.chapters.countP (synthFails synth voice language speed provider) = 1) :
    ∃ resp : BookAudioResponse,
      (generateBookAudio books audioFiles synth bookId voice
          language speed provider).result = BookAudioResult.completed resp ∧
      resp.failed = 1 ∧
      resp.successful = book.chapters.length - 1 ∧
      resp.chaptersProcessed = book.chapters.length ∧
      (generateBookAudio books audioFiles synth bookId voice
          language speed provider).statusWrites = ["PROCESSING", "COMPLETED"] := by
  have hstatusF : ∀ c ∈ book.chapters,
      (((processBookChapter audioFiles synth bookId voice language speed
          provider c).1.status == "failed")
        = synthFails synth voice language speed provider c) := by
    intro c hc
    unfold processBookChapter synthFails
    rw [hnoex c hc]
    rcases synth ⟨c.content, voice, language.getD "en-US", speed.getD 1, provider⟩ with m | r
    · rfl
    · rfl
  have hstatusG : ∀ c ∈ book.chapters,
      (((processBookChapter audioFiles synth bookId voice language speed
          provider c).1.status == "generated")
        = !(synthFails synth voice language speed provider c)) := by
    intro c hc
    unfold processBookChapter synthFails
    rw [hnoex c hc]
    rcases synth ⟨c.content, voice, language.getD "en-US", speed.getD 1, provider⟩ with m | r
    · rfl
    · rfl
  have hR := batchesOf_map_flatten
    (processBookChapter audioFiles synth bookId voice language speed provider) book.chapters
  have hcountF :
      ((book.chapters.map (processBookChapter audioFiles synth bookId voice language
          speed provider)).map (fun p => p.1)).countP (fun r => r.status == "failed")
        = 1 := by
    rw [List.countP_map, List.countP_map]
    rw [← hfail]
    apply List.countP_congr
    intro c hc
    simp only [Function.comp_apply]
    rw [hstatusF c hc]
  have hcountG :
      ((book.chapters.map (processBookChapter audioFiles synth bookId voice language
          speed provider)).map (fun p => p.1)).countP (fun r => r.status == "generated")
        = book.chapters.length - 1 := by
    rw [List.countP_map, List.countP_map]
    have hsum := List.length_eq_countP_add_countP
      (p := synthFails synth voice language speed provider) book.chapters
    have hneg : book.chapters.countP
        (((fun r : ChapterOutcome => r.status == "generated") ∘
            fun p : ChapterOutcome × Nat × List AudioFileRec => p.1) ∘
          processBookChapter audioFiles synth bookId voice language speed provider)
        = book.chapters.countP
          (fun a => ¬(synthFails synth voice language speed provider a = true)) := by
      apply List.countP_congr
      intro c hc
      simp only [Function.comp_apply, hstatusG c hc]
      simp
    rw [hneg]
    omega
  unfold generateBookAudio
  simp only [hfind, hest]
  rw [if_neg hcap]
  simp only [hR]
  refine ⟨bookTotals ((book.chapters.map (processBookChapter audioFiles synth bookId
      voice language speed provider)).map (fun p => p.1)), rfl, ?_, ?_, ?_, ?_⟩
  · show ((((book.chapters.map (processBookChapter audioFiles synth bookId voice
        language speed provider)).map (fun p => p.1)).filter
          (fun r => r.status == "failed")).length) = 1
    rw [← List.countP_eq_length_filter]
    exact hcountF
  · show ((((book.chapters.map (processBookChapter audioFiles synth bookId voice
        language speed provider)).map (fun p => p.1)).filter
          (fun r => r.status == "generated")).length) = book.chapters.length - 1
    rw [← List.countP_eq_length_filter]
    exact hcountG
  · show (((book.chapters.map (processBookChapter audioFiles synth bookId voice
        language speed provider)).map (fun p => p.1)).length) = book.chapters.length
    rw [List.length_map, List.length_map]
  · rw [finalStatusWrite_eq]

/-- C4 witness: a two-chapter book whose second chapter's synthesis throws
completes with 1 success and 1 failure. -/
theorem c4_batch_resilience_witness :
    ∃ resp : BookAudioResponse,
      (generateBookAudio [⟨"b1", [⟨"c1", "b1", 1, ['a']⟩, ⟨"c2", "b1", 2, ['b']⟩]⟩] []
          (fun r => if r.text = ['b'] then Except.error "provider down"
            else Except.ok ⟨3, 1, 0, "amazon", r.voice, "f.mp3"⟩)
          "b1" "Joanna" none none none).result = BookAudioResult.completed resp ∧
      resp.failed = 1 ∧
      resp.successful = 1 ∧
      resp.chaptersProcessed = 2 ∧
      (generateBookAudio [⟨"b1", [⟨"c1", "b1", 1, ['a']⟩, ⟨"c2", "b1", 2, ['b']⟩]⟩] []
          (fun r => if r.text = ['b'] then Except.error "provider down"
            else Except.ok ⟨3, 1, 0, "amazon", r.voice, "f.mp3"⟩)
          "b1" "Joanna" none none none).statusWrites = ["PROCESSING", "COMPLETED"] := by
  have h := c4_batch_resilience
    [⟨"b1", [⟨"c1", "b1", 1, ['a']⟩, ⟨"c2", "b1", 2, ['b']⟩]⟩] []
    (fun r => if r.text = ['b'] then Except.error "provider down"
      else Except.ok ⟨3, 1, 0, "amazon", r.voice, "f.mp3"⟩)
    "b1" "Joanna" none none none
    ⟨"b1", [⟨"c1", "b1", 1, ['a']⟩, ⟨"c2", "b1", 2, ['b']⟩]⟩ 0
    rfl ?hest ?hcap ?hnoex ?hfail
  · obtain ⟨resp, h1, h2, h3, h4, h5⟩ := h
    exact ⟨resp, h1, h2, h3, h4, h5⟩
  case hest =>
    have h1 : availableVoices.find? (fun v => v.id == "Joanna") =
        some ⟨"Joanna", "English (US) - Joanna", "en-US", "female",
          "amazon", 0.000004⟩ := rfl
    simp only [totalEstimate, List.foldl_cons, List.foldl_nil, estimateCost, h1]
    norm_num [jsRound]
    rfl
  case hcap => norm_num
  case hnoex =>
    intro c _
    rfl
  case hfail => rfl

end BookEq
